import Mathlib

/-
  Verification of the OFFER-HUB escrow settlement core.

  The data model (EscrowState, DisputeResult, Milestone, MilestoneHistory,
  EscrowData) and the constants DEFAULT_ESCROW_FEE_PERCENTAGE /
  DEFAULT_DISPUTE_FEE_PERCENTAGE are embedded from
  contracts/escrow-contract/src/types.rs and
  contracts/fee-manager-contract/src/storage.rs.

  The settlement entrypoints (fund, create_milestone, approve_milestone,
  release_milestone, release_full, raise_dispute, resolve_dispute, refund)
  are not present in the repository snapshot; they are modelled from the
  specification (sections 4.1 - 4.5 and 6) and each carries a doc comment
  saying so.

  The emergency collaborator contract
  (contracts/emergency-contract/src/emergency.rs) is embedded directly from
  its source for the recovery-request claims.

  Soroban `Address` values are represented by natural numbers; `Symbol` and
  `String` by Lean strings; `u32`, `u64`, `u128` by Nat; `i128` by Int (no
  operation proved about ever approaches the i128 range, so wrap-around is
  not modelled).
-/

namespace OfferHub

/-- Embedded from types.rs: the escrow lifecycle state enumeration. -/
inductive EscrowState where
  | Created
  | Funded
  | Released
  | Refunded
  | Disputed
deriving DecidableEq, Repr

/-- Embedded from types.rs, `EscrowState::can_transition_to`: the pairwise
match over the closed enumeration of states. -/
def EscrowState.can_transition_to : EscrowState → EscrowState → Bool
  | .Created, .Funded => true
  | .Funded, .Released => true
  | .Funded, .Refunded => true
  | .Funded, .Disputed => true
  | .Disputed, .Released => true
  | .Disputed, .Refunded => true
  | _, _ => false

/-- Embedded from types.rs: dispute outcome enumeration with explicit
u32 discriminants 0..3. -/
inductive DisputeResult where
  | None
  | ClientWins
  | FreelancerWins
  | Split
deriving DecidableEq, Repr

/-- The u32 discriminant of a `DisputeResult`, as declared in types.rs
(`#[repr(u32)]`, None = 0, ClientWins = 1, FreelancerWins = 2, Split = 3). -/
def DisputeResult.toU32 : DisputeResult → Nat
  | .None => 0
  | .ClientWins => 1
  | .FreelancerWins => 2
  | .Split => 3

/-- Embedded from types.rs: one milestone of an escrow. -/
structure Milestone where
  id : Nat
  description : String
  amount : Int
  approved : Bool
  released : Bool
  created_at : Nat
  approved_at : Option Nat
  released_at : Option Nat
deriving DecidableEq, Repr

/-- Embedded from types.rs: one append-only audit-log entry. -/
structure MilestoneHistory where
  milestone : Milestone
  action : String
  timestamp : Nat
deriving DecidableEq, Repr

/-- Embedded from types.rs: the escrow record.  Note that `dispute_result`
is declared as a raw u32 (here Nat), not as `DisputeResult`. -/
structure EscrowData where
  client : Nat
  freelancer : Nat
  arbitrator : Option Nat
  token : Option Nat
  amount : Int
  state : EscrowState
  dispute_result : Nat
  created_at : Nat
  funded_at : Option Nat
  released_at : Option Nat
  disputed_at : Option Nat
  resolved_at : Option Nat
  timeout_secs : Option Nat
  milestones : List Milestone
  milestone_history : List MilestoneHistory
  released_amount : Int
  fee_manager : Nat
  fee_collected : Int
  net_amount : Int
deriving DecidableEq, Repr

/-- Embedded from fee-manager-contract/src/storage.rs: default escrow fee
in basis points (2.5%). -/
def DEFAULT_ESCROW_FEE_PERCENTAGE : Int := 250

/-- Embedded from fee-manager-contract/src/storage.rs: default dispute fee
in basis points (5.0%). -/
def DEFAULT_DISPUTE_FEE_PERCENTAGE : Int := 500

/-- Modelled from the spec: the error kinds of section 7 (the escrow
contract's error enumeration is not in the repository snapshot). -/
inductive Error where
  | InvalidTransition
  | Unauthorized
  | AlreadyFunded
  | InsufficientValue
  | AmountMismatch
  | MilestoneNotFound
  | MilestoneAlreadyApproved
  | MilestoneAlreadyReleased
  | MilestoneNotApproved
  | MaxMilestonesExceeded
  | DisputeNotActive
  | ArbitratorRequired
  | TimeoutNotReached
  | NoResidualToSettle
deriving DecidableEq, Repr

/-- Modelled from the spec: the configuration the entrypoints read
(section 3, ContractConfig in types.rs gives the fields). -/
structure Config where
  fee_bps : Int
  dispute_fee_bps : Int
  max_milestones : Nat
deriving DecidableEq, Repr

/-- The default configuration, built from the embedded fee-manager
constants (max_milestones is not fixed anywhere in the snapshot; 10 is a
placeholder used only in concrete scenario runs). -/
def defaultConfig : Config :=
  { fee_bps := DEFAULT_ESCROW_FEE_PERCENTAGE
  , dispute_fee_bps := DEFAULT_DISPUTE_FEE_PERCENTAGE
  , max_milestones := 10 }

/-- Value transfers performed by one entrypoint call. -/
structure Payout where
  to_client : Int
  to_freelancer : Int
  fee_amount : Int
deriving DecidableEq, Repr

/-- The empty payout. -/
def noPayout : Payout := { to_client := 0, to_freelancer := 0, fee_amount := 0 }

/-- Modelled from the spec (section 4.3): the pure fee calculator.
`fee_amount = floor(gross * fee_bps / 10000)`, `net = gross - fee_amount`.
For nonnegative arguments Int division is the floor the spec asks for. -/
def fee (gross fee_bps : Int) : Int × Int :=
  let fee_amount := gross * fee_bps / 10000
  (fee_amount, gross - fee_amount)

/-- Modelled from the spec (section 6): the `create` entrypoint builds a
fresh record in state Created. -/
def create (client freelancer : Nat) (arbitrator token : Option Nat)
    (amount : Int) (timeout_secs : Option Nat) (fee_manager : Nat)
    (now : Nat) : EscrowData :=
  { client := client
  , freelancer := freelancer
  , arbitrator := arbitrator
  , token := token
  , amount := amount
  , state := .Created
  , dispute_result := 0
  , created_at := now
  , funded_at := none
  , released_at := none
  , disputed_at := none
  , resolved_at := none
  , timeout_secs := timeout_secs
  , milestones := []
  , milestone_history := []
  , released_amount := 0
  , fee_manager := fee_manager
  , fee_collected := 0
  , net_amount := amount }

/-- Sum of all milestone amounts. -/
def milestoneSum (ms : List Milestone) : Int :=
  (ms.map (·.amount)).sum

/-- Sum of the amounts of the released milestones. -/
def releasedSum (ms : List Milestone) : Int :=
  ((ms.filter (·.released)).map (·.amount)).sum

/-- Mark the first milestone whose id matches as approved (ids are unique
by construction, so this is the update the spec describes). -/
def markApproved (now : Nat) : List Milestone → Nat → List Milestone
  | [], _ => []
  | m :: ms, i =>
      if m.id = i then { m with approved := true, approved_at := some now } :: ms
      else m :: markApproved now ms i

/-- Mark the first milestone whose id matches as released. -/
def markReleased (now : Nat) : List Milestone → Nat → List Milestone
  | [], _ => []
  | m :: ms, i =>
      if m.id = i then { m with released := true, released_at := some now } :: ms
      else m :: markReleased now ms i

/-- Modelled from the spec (section 4.1): `fund()`; caller must be client,
state must have the edge to Funded (only Created does), attached value must
equal `amount`. -/
def fund (caller : Nat) (value : Int) (now : Nat) (e : EscrowData) :
    Except Error (EscrowData × Payout) :=
  if caller ≠ e.client then .error .Unauthorized
  else if ¬ e.state.can_transition_to .Funded then .error .InvalidTransition
  else if value ≠ e.amount then .error .InsufficientValue
  else .ok ({ e with state := .Funded, funded_at := some now }, noPayout)

/-- Modelled from the spec (section 4.2): `create_milestone`; client only,
state Created or Funded, no milestone released yet, positive amount, the
configured maximum count, and the running sum bounded by `amount`; assigns
id `length + 1` (next sequential id) and appends a `created` audit entry. -/
def create_milestone (cfg : Config) (caller : Nat) (description : String)
    (amount : Int) (now : Nat) (e : EscrowData) :
    Except Error (EscrowData × Payout) :=
  if caller ≠ e.client then .error .Unauthorized
  else if ¬ (e.state = .Created ∨ e.state = .Funded) then .error .InvalidTransition
  else if e.milestones.any (·.released) then .error .MilestoneAlreadyReleased
  else if amount ≤ 0 then .error .AmountMismatch
  else if cfg.max_milestones ≤ e.milestones.length then .error .MaxMilestonesExceeded
  else if e.amount < milestoneSum e.milestones + amount then .error .AmountMismatch
  else
    let m : Milestone :=
      { id := e.milestones.length + 1
      , description := description
      , amount := amount
      , approved := false
      , released := false
      , created_at := now
      , approved_at := none
      , released_at := none }
    .ok ({ e with
            milestones := e.milestones ++ [m]
          , milestone_history := e.milestone_history ++ [⟨m, "created", now⟩] },
         noPayout)

/-- Modelled from the spec (section 4.2): `approve_milestone`; client or
arbitrator, milestone must exist and be unapproved. -/
def approve_milestone (caller : Nat) (id : Nat) (now : Nat) (e : EscrowData) :
    Except Error (EscrowData × Payout) :=
  if ¬ (caller = e.client ∨ some caller = e.arbitrator) then .error .Unauthorized
  else match e.milestones.find? (·.id = id) with
  | none => .error .MilestoneNotFound
  | some m =>
      if m.approved then .error .MilestoneAlreadyApproved
      else
        let m' := { m with approved := true, approved_at := some now }
        .ok ({ e with
                milestones := markApproved now e.milestones id
              , milestone_history := e.milestone_history ++ [⟨m', "approved", now⟩] },
             noPayout)

/-- Modelled from the spec (section 4.2): `release_milestone`; client or
arbitrator, milestone must exist, be unreleased (`MilestoneAlreadyReleased`
otherwise, checked before the state as the spec lists the flag requirements
first) and approved, and the record must be Funded; fees are computed on the
milestone's own amount; if afterwards every milestone is released the record
auto-transitions Funded→Released. -/
def release_milestone (cfg : Config) (caller : Nat) (id : Nat) (now : Nat)
    (e : EscrowData) : Except Error (EscrowData × Payout) :=
  if ¬ (caller = e.client ∨ some caller = e.arbitrator) then .error .Unauthorized
  else match e.milestones.find? (·.id = id) with
  | none => .error .MilestoneNotFound
  | some m =>
      if m.released then .error .MilestoneAlreadyReleased
      else if ¬ m.approved then .error .MilestoneNotApproved
      else if e.state ≠ .Funded then .error .InvalidTransition
      else
        let p := fee m.amount cfg.fee_bps
        let ms' := markReleased now e.milestones id
        let allReleased := ms'.all (·.released)
        let m' := { m with released := true, released_at := some now }
        .ok ({ e with
                milestones := ms'
              , milestone_history := e.milestone_history ++ [⟨m', "released", now⟩]
              , released_amount := e.released_amount + m.amount
              , fee_collected := e.fee_collected + p.1
              , net_amount := e.amount - (e.fee_collected + p.1)
              , state := if allReleased then .Released else e.state
              , released_at := if allReleased then some now else e.released_at },
            { to_client := 0, to_freelancer := p.2, fee_amount := p.1 })

/-- Modelled from the spec (section 4.1): `release_full`; client only,
state must be Funded (otherwise `InvalidTransition`), no milestone may be
pending; the fee is computed on the unreleased residual, the net residual
goes to the freelancer, and `released_amount` is set to `amount`. -/
def release_full (cfg : Config) (caller : Nat) (now : Nat) (e : EscrowData) :
    Except Error (EscrowData × Payout) :=
  if caller ≠ e.client then .error .Unauthorized
  else if e.state ≠ .Funded then .error .InvalidTransition
  else if e.milestones.any (fun m => ¬ m.released) then .error .MilestoneNotApproved
  else
    let p := fee (e.amount - e.released_amount) cfg.fee_bps
    .ok ({ e with
            state := .Released
          , released_at := some now
          , released_amount := e.amount
          , fee_collected := e.fee_collected + p.1
          , net_amount := e.amount - (e.fee_collected + p.1) },
        { to_client := 0, to_freelancer := p.2, fee_amount := p.1 })

/-- Modelled from the spec (section 4.1): `raise_dispute`; client or
freelancer, the edge to Disputed must exist (only from Funded), and an
arbitrator must be set. -/
def raise_dispute (caller : Nat) (now : Nat) (e : EscrowData) :
    Except Error (EscrowData × Payout) :=
  if ¬ (caller = e.client ∨ caller = e.freelancer) then .error .Unauthorized
  else if ¬ e.state.can_transition_to .Disputed then .error .InvalidTransition
  else match e.arbitrator with
  | none => .error .ArbitratorRequired
  | some _ => .ok ({ e with state := .Disputed, disputed_at := some now }, noPayout)

/-- Modelled from the spec (sections 4.1 and 4.4): `resolve_dispute`;
arbitrator only, state must be Disputed (`DisputeNotActive` otherwise).
The residual `R = amount - released_amount` is settled: ClientWins refunds
all of `R`; FreelancerWins releases `R` net of the dispute fee; Split
partitions `R` by `freelancer_bps` (must be within 0..10000), fee-adjusts
only the freelancer's share, and ends Released exactly when that share is
nonzero.  Passing the `None` outcome is rejected.  Dispute payouts use the
dispute fee rate (scenario B: 5% on the freelancer's share). -/
def resolve_dispute (cfg : Config) (caller : Nat) (result : DisputeResult)
    (freelancer_bps : Int) (now : Nat) (e : EscrowData) :
    Except Error (EscrowData × Payout) :=
  match e.arbitrator with
  | none => .error .ArbitratorRequired
  | some arb =>
    if caller ≠ arb then .error .Unauthorized
    else if e.state ≠ .Disputed then .error .DisputeNotActive
    else
      let r := e.amount - e.released_amount
      match result with
      | .None => .error .DisputeNotActive
      | .ClientWins =>
          .ok ({ e with
                  state := .Refunded
                , dispute_result := DisputeResult.ClientWins.toU32
                , resolved_at := some now
                , net_amount := e.amount - e.fee_collected },
              { to_client := r, to_freelancer := 0, fee_amount := 0 })
      | .FreelancerWins =>
          let p := fee r cfg.dispute_fee_bps
          .ok ({ e with
                  state := .Released
                , dispute_result := DisputeResult.FreelancerWins.toU32
                , resolved_at := some now
                , released_at := some now
                , released_amount := e.released_amount + r
                , fee_collected := e.fee_collected + p.1
                , net_amount := e.amount - (e.fee_collected + p.1) },
              { to_client := 0, to_freelancer := p.2, fee_amount := p.1 })
      | .Split =>
          if freelancer_bps < 0 ∨ 10000 < freelancer_bps then .error .AmountMismatch
          else
            let fs := r * freelancer_bps / 10000
            let cs := r - fs
            let p := fee fs cfg.dispute_fee_bps
            .ok ({ e with
                    state := if fs ≠ 0 then .Released else .Refunded
                  , dispute_result := DisputeResult.Split.toU32
                  , resolved_at := some now
                  , released_at := if fs ≠ 0 then some now else e.released_at
                  , released_amount := e.released_amount + fs
                  , fee_collected := e.fee_collected + p.1
                  , net_amount := e.amount - (e.fee_collected + p.1) },
                { to_client := cs, to_freelancer := p.2, fee_amount := p.1 })

/-- Modelled from the spec (sections 4.1, 4.5): `refund`; state must be
Funded (`InvalidTransition` otherwise — this also covers "no active
dispute"); the client may refund at any time, any other caller only once
`timeout_secs` has elapsed since `funded_at` (`TimeoutNotReached` before
that, `Unauthorized` when no timeout is configured); returns the unreleased
residual to the client. -/
def refund (caller : Nat) (now : Nat) (e : EscrowData) :
    Except Error (EscrowData × Payout) :=
  if e.state ≠ .Funded then .error .InvalidTransition
  else if caller = e.client then
    .ok ({ e with state := .Refunded },
        { to_client := e.amount - e.released_amount, to_freelancer := 0
        , fee_amount := 0 })
  else match e.timeout_secs with
    | none => .error .Unauthorized
    | some t =>
        if now < e.funded_at.getD 0 + t then .error .TimeoutNotReached
        else
          .ok ({ e with state := .Refunded },
              { to_client := e.amount - e.released_amount, to_freelancer := 0
              , fee_amount := 0 })

/-- One entrypoint invocation (caller, arguments, ledger timestamp). -/
inductive Op where
  | fund (caller : Nat) (value : Int) (now : Nat)
  | create_milestone (caller : Nat) (description : String) (amount : Int) (now : Nat)
  | approve_milestone (caller : Nat) (id : Nat) (now : Nat)
  | release_milestone (caller : Nat) (id : Nat) (now : Nat)
  | release_full (caller : Nat) (now : Nat)
  | raise_dispute (caller : Nat) (now : Nat)
  | resolve_dispute (caller : Nat) (result : DisputeResult) (freelancer_bps : Int) (now : Nat)
  | refund (caller : Nat) (now : Nat)

/-- Dispatch one entrypoint call on a record. -/
def exec (cfg : Config) : Op → EscrowData → Except Error (EscrowData × Payout)
  | .fund caller value now, e => fund caller value now e
  | .create_milestone caller d amount now, e => create_milestone cfg caller d amount now e
  | .approve_milestone caller id now, e => approve_milestone caller id now e
  | .release_milestone caller id now, e => release_milestone cfg caller id now e
  | .release_full caller now, e => release_full cfg caller now e
  | .raise_dispute caller now, e => raise_dispute caller now e
  | .resolve_dispute caller r fb now, e => resolve_dispute cfg caller r fb now e
  | .refund caller now, e => refund caller now e

/-- The state left behind by one call: a failing call leaves the record
unchanged (per-call atomicity of the host). -/
def step (cfg : Config) (op : Op) (e : EscrowData) : EscrowData :=
  match exec cfg op e with
  | .ok (e', _) => e'
  | .error _ => e

/-- The record after a sequence of entrypoint calls. -/
def steps (cfg : Config) (ops : List Op) (e : EscrowData) : EscrowData :=
  ops.foldl (fun a op => step cfg op a) e

/-- A record is reachable from a starting record when some sequence of
entrypoint calls produces it. -/
def Reachable (cfg : Config) (e0 e : EscrowData) : Prop :=
  ∃ ops : List Op, steps cfg ops e0 = e

/-- A configuration is well formed when both fee rates are genuine
basis-point rates (between 0 and 10000). -/
abbrev CfgOk (cfg : Config) : Prop :=
  0 ≤ cfg.fee_bps ∧ cfg.fee_bps ≤ 10000 ∧
  0 ≤ cfg.dispute_fee_bps ∧ cfg.dispute_fee_bps ≤ 10000

/-- Scenario A start: escrow of amount 1000 between client 1 and
freelancer 2 with arbitrator 3, created at time 100. -/
def escrowA0 : EscrowData := create 1 2 (some 3) none 1000 none 9 100

/-- Scenario A after funding. -/
def escrowA1 : EscrowData := step defaultConfig (.fund 1 1000 110) escrowA0

/-- Scenario A after the full release. -/
def escrowA2 : EscrowData := step defaultConfig (.release_full 1 120) escrowA1

/-- A funded, disputed escrow of amount 1000 (used for the dispute
resolution scenarios). -/
def escrowB : EscrowData :=
  steps defaultConfig [.fund 1 1000 110, .raise_dispute 1 115] escrowA0

/-- Scenario C start: escrow of amount 500 with a 86400-second timeout,
created and funded at time 0. -/
def escrowC0 : EscrowData := create 1 2 none none 500 (some 86400) 9 0

/-- Scenario C after funding at time 0. -/
def escrowC1 : EscrowData := step defaultConfig (.fund 1 500 0) escrowC0

/-- A funded escrow with one milestone of 400 already created. -/
def escrowM : EscrowData :=
  steps defaultConfig [.fund 1 1000 110, .create_milestone 1 "m1" 400 111] escrowA0

/-- A funded escrow with milestones 400 and 600, the first approved. -/
def escrowM2 : EscrowData :=
  steps defaultConfig
    [.fund 1 1000 110, .create_milestone 1 "m1" 400 111,
     .create_milestone 1 "m2" 600 112, .approve_milestone 1 1 113] escrowA0

/-- `escrowM2` after releasing milestone 1. -/
def escrowM3 : EscrowData := step defaultConfig (.release_milestone 1 1 114) escrowM2

/-- A disputed escrow resolved in the client's favour (`dispute_result`
set to 1). -/
def escrowRes : EscrowData :=
  steps defaultConfig
    [.fund 1 1000 110, .raise_dispute 1 115, .resolve_dispute 3 .ClientWins 0 130]
    escrowA0

/-- A well-typed record whose raw `dispute_result` lies outside the
`DisputeResult` discriminants. -/
def escrowRaw : EscrowData := { escrowA0 with dispute_result := 7 }

/-- Embedded from emergency-contract: the error variants that
emergency.rs raises (the enum lives in its error module). -/
inductive EmergencyError where
  | UnauthorizedAccess
  | ContractPaused
  | InvalidEmergencyAction
  | InsufficientEmergencyFunds
  | RecoveryRequestNotFound
deriving DecidableEq, Repr

/-- Embedded from emergency.rs: one fund-recovery request. -/
structure RecoveryRequest where
  request_id : Nat
  user_address : Nat
  amount : Nat
  reason : String
  status : String
  timestamp : Nat
deriving DecidableEq, Repr

/-- Embedded from emergency.rs: the `STATUS_APPROVED` symbol. -/
def STATUS_APPROVED : String := "APPROVED"

/-- An event published by the emergency contract (topic and request id). -/
structure EmergencyEvent where
  topic : String
  request_id : Nat
deriving DecidableEq, Repr

/-- Embedded from emergency.rs: the update loop of
`approve_recovery_request` — walk the stored list, set the status of the
first request whose id matches to APPROVED, and stop (the Rust loop
breaks after the first hit). -/
def approveLoop : List RecoveryRequest → Nat → List RecoveryRequest
  | [], _ => []
  | r :: rs, i =>
      if r.request_id = i then { r with status := STATUS_APPROVED } :: rs
      else r :: approveLoop rs i

/-- Embedded from emergency.rs: `approve_recovery_request` after the admin
authorization check.  When the storage key is absent it panics with
`RecoveryRequestNotFound`; otherwise it runs the update loop, writes the
list back unconditionally and publishes the `approve_recovery_request`
event — there is no check that any request actually matched. -/
def approve_recovery_request (stored : Option (List RecoveryRequest))
    (request_id : Nat) :
    Except EmergencyError (List RecoveryRequest × EmergencyEvent) :=
  match stored with
  | none => .error .RecoveryRequestNotFound
  | some reqs =>
      .ok (approveLoop reqs request_id,
           { topic := "approve_recovery_request", request_id := request_id })

lemma fee_fst_nonneg {gross bps : Int} (hg : 0 ≤ gross) (hb : 0 ≤ bps) :
    0 ≤ (fee gross bps).1 :=
  Int.ediv_nonneg (mul_nonneg hg hb) (by norm_num)

lemma fee_fst_le {gross bps : Int} (hg : 0 ≤ gross) (hb : bps ≤ 10000) :
    (fee gross bps).1 ≤ gross := by
  show gross * bps / 10000 ≤ gross
  calc gross * bps / 10000 ≤ gross * 10000 / 10000 := by
        exact Int.ediv_le_ediv (by norm_num) (mul_le_mul_of_nonneg_left hb hg)
    _ = gross := Int.mul_ediv_cancel gross (by norm_num)

lemma can_to_funded {s : EscrowState} (h : s.can_transition_to .Funded = true) :
    s = .Created := by
  cases s <;> first | rfl | exact absurd h (by decide)

lemma can_to_disputed {s : EscrowState} (h : s.can_transition_to .Disputed = true) :
    s = .Funded := by
  cases s <;> first | rfl | exact absurd h (by decide)

lemma ne_funded_of_not_can_released {s : EscrowState}
    (h : s.can_transition_to .Released = false) : s ≠ .Funded := by
  intro hs; rw [hs] at h; exact absurd h (by decide)

lemma ne_funded_of_not_can_refunded {s : EscrowState}
    (h : s.can_transition_to .Refunded = false) : s ≠ .Funded := by
  intro hs; rw [hs] at h; exact absurd h (by decide)

lemma milestoneSum_nil : milestoneSum [] = 0 := rfl

lemma milestoneSum_cons (m : Milestone) (ms : List Milestone) :
    milestoneSum (m :: ms) = m.amount + milestoneSum ms := by
  simp [milestoneSum]

lemma milestoneSum_append (ms : List Milestone) (m : Milestone) :
    milestoneSum (ms ++ [m]) = milestoneSum ms + m.amount := by
  simp [milestoneSum]

lemma releasedSum_nil : releasedSum [] = 0 := rfl

lemma releasedSum_cons (m : Milestone) (ms : List Milestone) :
    releasedSum (m :: ms) =
      (if m.released = true then m.amount else 0) + releasedSum ms := by
  by_cases h : m.released = true <;>
    simp [releasedSum, List.filter_cons, h]

lemma releasedSum_append_unreleased {m : Milestone} (ms : List Milestone)
    (h : m.released = false) : releasedSum (ms ++ [m]) = releasedSum ms := by
  simp [releasedSum, List.filter_append, h]

lemma releasedSum_le {ms : List Milestone} (h : ∀ x ∈ ms, 0 ≤ x.amount) :
    releasedSum ms ≤ milestoneSum ms := by
  induction ms with
  | nil => simp [releasedSum_nil, milestoneSum_nil]
  | cons a t ih =>
    rw [releasedSum_cons, milestoneSum_cons]
    have ha := h a (by simp)
    have ht := ih (fun x hx => h x (by simp [hx]))
    by_cases hr : a.released = true <;> simp [hr] <;> linarith

lemma releasedSum_add_le {ms : List Milestone} {m : Milestone} {i : Nat}
    (hf : ms.find? (·.id = i) = some m) (hrel : m.released = false)
    (hpos : ∀ x ∈ ms, 0 < x.amount) :
    releasedSum ms + m.amount ≤ milestoneSum ms := by
  induction ms with
  | nil => simp at hf
  | cons a t ih =>
    have hposT : ∀ x ∈ t, 0 < x.amount := fun x hx => hpos x (by simp [hx])
    by_cases h : a.id = i
    · rw [List.find?_cons_of_pos _ (by simpa using h)] at hf
      have ham : a = m := by simpa using hf
      subst ham
      rw [releasedSum_cons, milestoneSum_cons, hrel]
      simp only [Bool.false_eq_true, if_false, zero_add]
      have := releasedSum_le (fun x hx => le_of_lt (hposT x hx))
      linarith
    · rw [List.find?_cons_of_neg _ (by simpa using h)] at hf
      have hi := ih hf hposT
      have ha := hpos a (by simp)
      rw [releasedSum_cons, milestoneSum_cons]
      by_cases hr : a.released = true <;> simp [hr] <;> linarith

lemma markReleased_sum (now i : Nat) (ms : List Milestone) :
    milestoneSum (markReleased now ms i) = milestoneSum ms := by
  induction ms with
  | nil => rfl
  | cons a t ih =>
    unfold markReleased
    by_cases h : a.id = i <;> simp [h, milestoneSum_cons, ih]

lemma markReleased_releasedSum {now i : Nat} {ms : List Milestone} {m : Milestone}
    (hf : ms.find? (·.id = i) = some m) (hrel : m.released = false) :
    releasedSum (markReleased now ms i) = releasedSum ms + m.amount := by
  induction ms with
  | nil => simp at hf
  | cons a t ih =>
    by_cases h : a.id = i
    · rw [List.find?_cons_of_pos _ (by simpa using h)] at hf
      have ham : a = m := by simpa using hf
      subst ham
      unfold markReleased
      rw [if_pos h, releasedSum_cons, releasedSum_cons, hrel]
      simp [add_comm]
    · rw [List.find?_cons_of_neg _ (by simpa using h)] at hf
      unfold markReleased
      rw [if_neg h, releasedSum_cons, releasedSum_cons, ih hf]
      ring

lemma markReleased_find? {now i : Nat} {ms : List Milestone} {m : Milestone}
    (hf : ms.find? (·.id = i) = some m) :
    (markReleased now ms i).find? (·.id = i) =
      some { m with released := true, released_at := some now } := by
  induction ms with
  | nil => simp at hf
  | cons a t ih =>
    by_cases h : a.id = i
    · rw [List.find?_cons_of_pos _ (by simpa using h)] at hf
      have ham : a = m := by simpa using hf
      subst ham
      unfold markReleased
      rw [if_pos h]
      exact List.find?_cons_of_pos _ (by simpa using h)
    · rw [List.find?_cons_of_neg _ (by simpa using h)] at hf
      unfold markReleased
      rw [if_neg h]
      rw [List.find?_cons_of_neg _ (by simpa using h)]
      exact ih hf

lemma markReleased_pos {now i : Nat} {ms : List Milestone}
    (h : ∀ x ∈ ms, 0 < x.amount) :
    ∀ x ∈ markReleased now ms i, 0 < x.amount := by
  induction ms with
  | nil => simp [markReleased]
  | cons a t ih =>
    have ha := h a (by simp)
    have ht : ∀ x ∈ t, 0 < x.amount := fun x hx => h x (by simp [hx])
    unfold markReleased
    by_cases hc : a.id = i
    · rw [if_pos hc]
      intro x hx
      rcases List.mem_cons.mp hx with hx | hx
      · subst hx; exact ha
      · exact ht x hx
    · rw [if_neg hc]
      intro x hx
      rcases List.mem_cons.mp hx with hx | hx
      · subst hx; exact ha
      · exact ih ht x hx

lemma markReleased_relapp {now i : Nat} {ms : List Milestone} {m : Milestone}
    (hf : ms.find? (·.id = i) = some m) (happ : m.approved = true)
    (h : ∀ x ∈ ms, x.released = true → x.approved = true) :
    ∀ x ∈ markReleased now ms i, x.released = true → x.approved = true := by
  induction ms with
  | nil => simp [markReleased]
  | cons a t ih =>
    have ht : ∀ x ∈ t, x.released = true → x.approved = true :=
      fun x hx => h x (by simp [hx])
    unfold markReleased
    by_cases hc : a.id = i
    · rw [List.find?_cons_of_pos _ (by simpa using hc)] at hf
      have ham : a = m := by simpa using hf
      subst ham
      rw [if_pos hc]
      intro x hx
      rcases List.mem_cons.mp hx with hx | hx
      · subst hx; intro _; exact happ
      · exact ht x hx
    · rw [List.find?_cons_of_neg _ (by simpa using hc)] at hf
      rw [if_neg hc]
      intro x hx
      rcases List.mem_cons.mp hx with hx | hx
      · subst hx; exact h _ (by simp)
      · exact ih hf ht x hx

lemma markApproved_sum (now i : Nat) (ms : List Milestone) :
    milestoneSum (markApproved now ms i) = milestoneSum ms := by
  induction ms with
  | nil => rfl
  | cons a t ih =>
    unfold markApproved
    by_cases h : a.id = i <;> simp [h, milestoneSum_cons, ih]

lemma markApproved_releasedSum (now i : Nat) (ms : List Milestone) :
    releasedSum (markApproved now ms i) = releasedSum ms := by
  induction ms with
  | nil => rfl
  | cons a t ih =>
    unfold markApproved
    by_cases h : a.id = i
    · rw [if_pos h, releasedSum_cons, releasedSum_cons]
    · rw [if_neg h, releasedSum_cons, releasedSum_cons, ih]

lemma markApproved_pos {now i : Nat} {ms : List Milestone}
    (h : ∀ x ∈ ms, 0 < x.amount) :
    ∀ x ∈ markApproved now ms i, 0 < x.amount := by
  induction ms with
  | nil => simp [markApproved]
  | cons a t ih =>
    have ha := h a (by simp)
    have ht : ∀ x ∈ t, 0 < x.amount := fun x hx => h x (by simp [hx])
    unfold markApproved
    by_cases hc : a.id = i
    · rw [if_pos hc]
      intro x hx
      rcases List.mem_cons.mp hx with hx | hx
      · subst hx; exact ha
      · exact ht x hx
    · rw [if_neg hc]
      intro x hx
      rcases List.mem_cons.mp hx with hx | hx
      · subst hx; exact ha
      · exact ih ht x hx

lemma markApproved_relapp {now i : Nat} {ms : List Milestone}
    (h : ∀ x ∈ ms, x.released = true → x.approved = true) :
    ∀ x ∈ markApproved now ms i, x.released = true → x.approved = true := by
  induction ms with
  | nil => simp [markApproved]
  | cons a t ih =>
    have ht : ∀ x ∈ t, x.released = true → x.approved = true :=
      fun x hx => h x (by simp [hx])
    unfold markApproved
    by_cases hc : a.id = i
    · rw [if_pos hc]
      intro x hx
      rcases List.mem_cons.mp hx with hx | hx
      · subst hx; intro _; rfl
      · exact ht x hx
    · rw [if_neg hc]
      intro x hx
      rcases List.mem_cons.mp hx with hx | hx
      · subst hx; exact h _ (by simp)
      · exact ih ht x hx

lemma step_of_error {cfg : Config} {op : Op} {e : EscrowData} {err : Error}
    (h : exec cfg op e = .error err) : step cfg op e = e := by
  unfold step; rw [h]

lemma step_of_ok {cfg : Config} {op : Op} {e e' : EscrowData} {p : Payout}
    (h : exec cfg op e = .ok (e', p)) : step cfg op e = e' := by
  unfold step; rw [h]

lemma fund_ok {caller : Nat} {value : Int} {now : Nat} {e e' : EscrowData}
    {p : Payout} (hok : fund caller value now e = .ok (e', p)) :
    caller = e.client ∧ e.state = .Created ∧ value = e.amount ∧
    e' = { e with state := .Funded, funded_at := some now } ∧ p = noPayout := by
  unfold fund at hok
  split at hok
  · cases hok
  next hc =>
    split at hok
    · cases hok
    next ht =>
      split at hok
      · cases hok
      next hv =>
        simp only [Except.ok.injEq, Prod.mk.injEq] at hok
        exact ⟨not_not.mp hc, can_to_funded (of_not_not ht), not_not.mp hv,
               hok.1.symm, hok.2.symm⟩

lemma create_milestone_ok {cfg : Config} {caller : Nat} {d : String} {amount : Int}
    {now : Nat} {e e' : EscrowData} {p : Payout}
    (hok : create_milestone cfg caller d amount now e = .ok (e', p)) :
    caller = e.client ∧ (e.state = .Created ∨ e.state = .Funded) ∧
    e.milestones.any (·.released) = false ∧ 0 < amount ∧
    e.milestones.length < cfg.max_milestones ∧
    milestoneSum e.milestones + amount ≤ e.amount ∧
    e' = { e with
            milestones := e.milestones ++
              [{ id := e.milestones.length + 1, description := d, amount := amount
               , approved := false, released := false, created_at := now
               , approved_at := none, released_at := none }]
          , milestone_history := e.milestone_history ++
              [⟨{ id := e.milestones.length + 1, description := d, amount := amount
                , approved := false, released := false, created_at := now
                , approved_at := none, released_at := none }, "created", now⟩] } ∧
    p = noPayout := by
  unfold create_milestone at hok
  split at hok
  · cases hok
  next hc =>
    split at hok
    · cases hok
    next hs =>
      split at hok
      · cases hok
      next hrel =>
        split at hok
        · cases hok
        next hpos =>
          split at hok
          · cases hok
          next hcnt =>
            split at hok
            · cases hok
            next hsum =>
              simp only [Except.ok.injEq, Prod.mk.injEq] at hok
              exact ⟨not_not.mp hc, not_not.mp hs,
                     Bool.eq_false_iff.mpr hrel, not_le.mp hpos,
                     not_le.mp hcnt, not_lt.mp hsum, hok.1.symm, hok.2.symm⟩

lemma approve_milestone_ok {caller id now : Nat} {e e' : EscrowData} {p : Payout}
    (hok : approve_milestone caller id now e = .ok (e', p)) :
    (caller = e.client ∨ some caller = e.arbitrator) ∧
    ∃ m, e.milestones.find? (·.id = id) = some m ∧ m.approved = false ∧
      e' = { e with
              milestones := markApproved now e.milestones id
            , milestone_history := e.milestone_history ++
                [⟨{ m with approved := true, approved_at := some now }, "approved", now⟩] } ∧
      p = noPayout := by
  unfold approve_milestone at hok
  split at hok
  · cases hok
  next hauth =>
    split at hok
    · cases hok
    next m hf =>
      split at hok
      · cases hok
      next happ =>
        simp only [Except.ok.injEq, Prod.mk.injEq] at hok
        exact ⟨not_not.mp hauth, m, hf, Bool.eq_false_iff.mpr happ,
               hok.1.symm, hok.2.symm⟩

lemma release_milestone_ok {cfg : Config} {caller id now : Nat}
    {e e' : EscrowData} {p : Payout}
    (hok : release_milestone cfg caller id now e = .ok (e', p)) :
    (caller = e.client ∨ some caller = e.arbitrator) ∧ e.state = .Funded ∧
    ∃ m, e.milestones.find? (·.id = id) = some m ∧ m.released = false ∧
      m.approved = true ∧
      e' = { e with
              milestones := markReleased now e.milestones id
            , milestone_history := e.milestone_history ++
                [⟨{ m with released := true, released_at := some now }, "released", now⟩]
            , released_amount := e.released_amount + m.amount
            , fee_collected := e.fee_collected + (fee m.amount cfg.fee_bps).1
            , net_amount := e.amount - (e.fee_collected + (fee m.amount cfg.fee_bps).1)
            , state := if (markReleased now e.milestones id).all (·.released)
                       then .Released else e.state
            , released_at := if (markReleased now e.milestones id).all (·.released)
                             then some now else e.released_at } ∧
      p = { to_client := 0, to_freelancer := (fee m.amount cfg.fee_bps).2
          , fee_amount := (fee m.amount cfg.fee_bps).1 } := by
  unfold release_milestone at hok
  split at hok
  · cases hok
  next hauth =>
    split at hok
    · cases hok
    next m hf =>
      split at hok
      · cases hok
      next hrel =>
        split at hok
        · cases hok
        next happ =>
          split at hok
          · cases hok
          next hs =>
            simp only [Except.ok.injEq, Prod.mk.injEq] at hok
            exact ⟨not_not.mp hauth, not_not.mp hs, m, hf,
                   Bool.eq_false_iff.mpr hrel, of_not_not happ,
                   hok.1.symm, hok.2.symm⟩

lemma release_full_ok {cfg : Config} {caller now : Nat} {e e' : EscrowData}
    {p : Payout} (hok : release_full cfg caller now e = .ok (e', p)) :
    caller = e.client ∧ e.state = .Funded ∧
    e.milestones.any (fun m => ¬ m.released) = false ∧
    e' = { e with
            state := .Released
          , released_at := some now
          , released_amount := e.amount
          , fee_collected := e.fee_collected +
              (fee (e.amount - e.released_amount) cfg.fee_bps).1
          , net_amount := e.amount - (e.fee_collected +
              (fee (e.amount - e.released_amount) cfg.fee_bps).1) } ∧
    p = { to_client := 0
        , to_freelancer := (fee (e.amount - e.released_amount) cfg.fee_bps).2
        , fee_amount := (fee (e.amount - e.released_amount) cfg.fee_bps).1 } := by
  unfold release_full at hok
  split at hok
  · cases hok
  next hc =>
    split at hok
    · cases hok
    next hs =>
      split at hok
      · cases hok
      next hpend =>
        simp only [Except.ok.injEq, Prod.mk.injEq] at hok
        exact ⟨not_not.mp hc, not_not.mp hs, Bool.eq_false_iff.mpr hpend,
               hok.1.symm, hok.2.symm⟩

lemma raise_dispute_ok {caller now : Nat} {e e' : EscrowData} {p : Payout}
    (hok : raise_dispute caller now e = .ok (e', p)) :
    (caller = e.client ∨ caller = e.freelancer) ∧ e.state = .Funded ∧
    (∃ arb, e.arbitrator = some arb) ∧
    e' = { e with state := .Disputed, disputed_at := some now } ∧ p = noPayout := by
  unfold raise_dispute at hok
  split at hok
  · cases hok
  next hauth =>
    split at hok
    · cases hok
    next hcan =>
      split at hok
      · cases hok
      next arb harb =>
        simp only [Except.ok.injEq, Prod.mk.injEq] at hok
        exact ⟨not_not.mp hauth, can_to_disputed (of_not_not hcan), ⟨arb, harb⟩,
               hok.1.symm, hok.2.symm⟩

lemma resolve_dispute_ok {cfg : Config} {caller : Nat} {result : DisputeResult}
    {freelancer_bps : Int} {now : Nat} {e e' : EscrowData} {p : Payout}
    (hok : resolve_dispute cfg caller result freelancer_bps now e = .ok (e', p)) :
    ∃ arb, e.arbitrator = some arb ∧ caller = arb ∧ e.state = .Disputed ∧
    ((result = .ClientWins ∧
        e' = { e with
                state := .Refunded
              , dispute_result := DisputeResult.ClientWins.toU32
              , resolved_at := some now
              , net_amount := e.amount - e.fee_collected } ∧
        p = { to_client := e.amount - e.released_amount, to_freelancer := 0
            , fee_amount := 0 }) ∨
     (result = .FreelancerWins ∧
        e' = { e with
                state := .Released
              , dispute_result := DisputeResult.FreelancerWins.toU32
              , resolved_at := some now
              , released_at := some now
              , released_amount := e.released_amount + (e.amount - e.released_amount)
              , fee_collected := e.fee_collected +
                  (fee (e.amount - e.released_amount) cfg.dispute_fee_bps).1
              , net_amount := e.amount - (e.fee_collected +
                  (fee (e.amount - e.released_amount) cfg.dispute_fee_bps).1) } ∧
        p = { to_client := 0
            , to_freelancer := (fee (e.amount - e.released_amount) cfg.dispute_fee_bps).2
            , fee_amount := (fee (e.amount - e.released_amount) cfg.dispute_fee_bps).1 }) ∨
     (result = .Split ∧ 0 ≤ freelancer_bps ∧ freelancer_bps ≤ 10000 ∧
        e' = { e with
                state := if (e.amount - e.released_amount) * freelancer_bps / 10000 ≠ 0
                         then .Released else .Refunded
              , dispute_result := DisputeResult.Split.toU32
              , resolved_at := some now
              , released_at := if (e.amount - e.released_amount) * freelancer_bps / 10000 ≠ 0
                               then some now else e.released_at
              , released_amount := e.released_amount +
                  (e.amount - e.released_amount) * freelancer_bps / 10000
              , fee_collected := e.fee_collected +
                  (fee ((e.amount - e.released_amount) * freelancer_bps / 10000)
                    cfg.dispute_fee_bps).1
              , net_amount := e.amount - (e.fee_collected +
                  (fee ((e.amount - e.released_amount) * freelancer_bps / 10000)
                    cfg.dispute_fee_bps).1) } ∧
        p = { to_client := (e.amount - e.released_amount) -
                (e.amount - e.released_amount) * freelancer_bps / 10000
            , to_freelancer := (fee ((e.amount - e.released_amount) * freelancer_bps / 10000)
                cfg.dispute_fee_bps).2
            , fee_amount := (fee ((e.amount - e.released_amount) * freelancer_bps / 10000)
                cfg.dispute_fee_bps).1 })) := by
  unfold resolve_dispute at hok
  split at hok
  · cases hok
  next arb harb =>
    split at hok
    · cases hok
    next hc =>
      split at hok
      · cases hok
      next hs =>
        refine ⟨arb, harb, not_not.mp hc, not_not.mp hs, ?_⟩
        split at hok
        · cases hok
        · simp only [Except.ok.injEq, Prod.mk.injEq] at hok
          exact Or.inl ⟨rfl, hok.1.symm, hok.2.symm⟩
        · simp only [Except.ok.injEq, Prod.mk.injEq] at hok
          exact Or.inr (Or.inl ⟨rfl, hok.1.symm, hok.2.symm⟩)
        · split at hok
          · cases hok
          next hfb =>
            push_neg at hfb
            simp only [Except.ok.injEq, Prod.mk.injEq] at hok
            exact Or.inr (Or.inr ⟨rfl, hfb.1, hfb.2, hok.1.symm, hok.2.symm⟩)

lemma refund_ok {caller now : Nat} {e e' : EscrowData} {p : Payout}
    (hok : refund caller now e = .ok (e', p)) :
    e.state = .Funded ∧ e' = { e with state := .Refunded } ∧
    p = { to_client := e.amount - e.released_amount, to_freelancer := 0
        , fee_amount := 0 } := by
  unfold refund at hok
  split at hok
  · cases hok
  next hs =>
    have hsf : e.state = .Funded := not_not.mp hs
    split at hok
    · simp only [Except.ok.injEq, Prod.mk.injEq] at hok
      exact ⟨hsf, hok.1.symm, hok.2.symm⟩
    · split at hok
      · cases hok
      · split at hok
        · cases hok
        · simp only [Except.ok.injEq, Prod.mk.injEq] at hok
          exact ⟨hsf, hok.1.symm, hok.2.symm⟩

/-- The inductive invariant maintained by every entrypoint: the accounting
bounds (which give the conservation law), milestone well-formedness, the
link between `released_amount` and the milestone ledger in non-terminal
states, and the terminality of dispute resolution. -/
structure Inv (e : EscrowData) : Prop where
  amount_pos : 0 < e.amount
  fee_nn : 0 ≤ e.fee_collected
  fee_le : e.fee_collected ≤ e.released_amount
  ra_le : e.released_amount ≤ e.amount
  ms_pos : ∀ m ∈ e.milestones, 0 < m.amount
  rel_app : ∀ m ∈ e.milestones, m.released = true → m.approved = true
  sum_le : milestoneSum e.milestones ≤ e.amount
  ra_eq : e.state ≠ .Released → e.state ≠ .Refunded →
          e.released_amount = releasedSum e.milestones
  dr_term : e.dispute_result ≠ 0 → e.state = .Released ∨ e.state = .Refunded
  rv_term : e.resolved_at ≠ none → e.state = .Released ∨ e.state = .Refunded

lemma inv_create {client freelancer : Nat} {arbitrator token : Option Nat}
    {amount : Int} {timeout_secs : Option Nat} {fee_manager now : Nat}
    (hamt : 0 < amount) :
    Inv (create client freelancer arbitrator token amount timeout_secs fee_manager now) := by
  refine ⟨hamt, le_refl 0, le_refl 0, le_of_lt hamt, ?_, ?_, ?_, ?_, ?_, ?_⟩
  · intro m hm; cases hm
  · intro m hm; cases hm
  · simpa [milestoneSum_nil, create] using le_of_lt hamt
  · intro _ _; rfl
  · intro hne; exact absurd rfl hne
  · intro hne; exact absurd rfl hne

lemma exec_ok_inv {cfg : Config} (hcfg : CfgOk cfg) {op : Op} {e e' : EscrowData}
    {p : Payout} (h : Inv e) (hok : exec cfg op e = .ok (e', p)) : Inv e' := by
  obtain ⟨hb1, hb2, hd1, hd2⟩ := hcfg
  cases op with
  | fund caller value now =>
    obtain ⟨-, hs, -, he, -⟩ := fund_ok hok
    subst he
    refine ⟨h.amount_pos, h.fee_nn, h.fee_le, h.ra_le, h.ms_pos, h.rel_app,
            h.sum_le, ?_, ?_, ?_⟩
    · intro _ _; exact h.ra_eq (by rw [hs]; decide) (by rw [hs]; decide)
    · intro hne
      rcases h.dr_term hne with h' | h' <;> rw [hs] at h' <;> cases h'
    · intro hne
      rcases h.rv_term hne with h' | h' <;> rw [hs] at h' <;> cases h'
  | create_milestone caller d amount now =>
    obtain ⟨-, hs, hnr, hpos, -, hsum, he, -⟩ := create_milestone_ok hok
    subst he
    have hnterm1 : e.state ≠ .Released := by
      rcases hs with h' | h' <;> rw [h'] <;> decide
    have hnterm2 : e.state ≠ .Refunded := by
      rcases hs with h' | h' <;> rw [h'] <;> decide
    refine ⟨h.amount_pos, h.fee_nn, h.fee_le, h.ra_le, ?_, ?_, ?_, ?_, ?_, ?_⟩
    · intro m hm
      rcases List.mem_append.mp hm with hm | hm
      · exact h.ms_pos m hm
      · simp at hm; subst hm; exact hpos
    · intro m hm
      rcases List.mem_append.mp hm with hm | hm
      · exact h.rel_app m hm
      · simp at hm; subst hm; intro hr; cases hr
    · rw [milestoneSum_append]; exact hsum
    · intro _ _
      rw [releasedSum_append_unreleased _ rfl]
      exact h.ra_eq hnterm1 hnterm2
    · intro hne
      rcases h.dr_term hne with h' | h' <;>
        [exact absurd h' hnterm1; exact absurd h' hnterm2]
    · intro hne
      rcases h.rv_term hne with h' | h' <;>
        [exact absurd h' hnterm1; exact absurd h' hnterm2]
  | approve_milestone caller id now =>
    obtain ⟨-, m, hf, -, he, -⟩ := approve_milestone_ok hok
    subst he
    refine ⟨h.amount_pos, h.fee_nn, h.fee_le, h.ra_le,
            markApproved_pos h.ms_pos, markApproved_relapp h.rel_app, ?_, ?_, ?_, ?_⟩
    · rw [markApproved_sum]; exact h.sum_le
    · intro h1 h2
      rw [markApproved_releasedSum]
      exact h.ra_eq h1 h2
    · exact h.dr_term
    · exact h.rv_term
  | release_milestone caller id now =>
    obtain ⟨-, hs, m, hf, hrel, happ, he, -⟩ := release_milestone_ok hok
    subst he
    have hm := List.mem_of_find?_eq_some hf
    have hmpos := h.ms_pos m hm
    have hraeq := h.ra_eq (by rw [hs]; decide) (by rw [hs]; decide)
    have hfee1 : 0 ≤ (fee m.amount cfg.fee_bps).1 :=
      fee_fst_nonneg (le_of_lt hmpos) hb1
    have hfee2 : (fee m.amount cfg.fee_bps).1 ≤ m.amount :=
      fee_fst_le (le_of_lt hmpos) hb2
    have hsum' : e.released_amount + m.amount ≤ e.amount := by
      rw [hraeq]
      calc releasedSum e.milestones + m.amount ≤ milestoneSum e.milestones :=
            releasedSum_add_le hf hrel h.ms_pos
        _ ≤ e.amount := h.sum_le
    refine ⟨h.amount_pos,
            by show 0 ≤ e.fee_collected + (fee m.amount cfg.fee_bps).1
               linarith [h.fee_nn],
            by show e.fee_collected + (fee m.amount cfg.fee_bps).1 ≤
                 e.released_amount + m.amount
               linarith [h.fee_le],
            hsum',
            markReleased_pos h.ms_pos, markReleased_relapp hf happ h.rel_app,
            ?_, ?_, ?_, ?_⟩
    · rw [markReleased_sum]; exact h.sum_le
    · intro h1 h2
      split at h1
      · exact absurd rfl h1
      · rw [markReleased_releasedSum hf hrel, hraeq]
    · intro hne
      rcases h.dr_term hne with h' | h' <;> rw [hs] at h' <;> cases h'
    · intro hne
      rcases h.rv_term hne with h' | h' <;> rw [hs] at h' <;> cases h'
  | release_full caller now =>
    obtain ⟨-, hs, -, he, -⟩ := release_full_ok hok
    subst he
    have hres : 0 ≤ e.amount - e.released_amount := by linarith [h.ra_le]
    have hfee1 : 0 ≤ (fee (e.amount - e.released_amount) cfg.fee_bps).1 :=
      fee_fst_nonneg hres hb1
    have hfee2 : (fee (e.amount - e.released_amount) cfg.fee_bps).1 ≤
        e.amount - e.released_amount := fee_fst_le hres hb2
    refine ⟨h.amount_pos,
            by show 0 ≤ e.fee_collected +
                 (fee (e.amount - e.released_amount) cfg.fee_bps).1
               linarith [h.fee_nn],
            by show e.fee_collected +
                 (fee (e.amount - e.released_amount) cfg.fee_bps).1 ≤ e.amount
               linarith [h.fee_le],
            le_refl _,
            h.ms_pos, h.rel_app, h.sum_le, ?_, ?_, ?_⟩
    · intro h1 _; exact absurd rfl h1
    · intro _; exact Or.inl rfl
    · intro _; exact Or.inl rfl
  | raise_dispute caller now =>
    obtain ⟨-, hs, -, he, -⟩ := raise_dispute_ok hok
    subst he
    refine ⟨h.amount_pos, h.fee_nn, h.fee_le, h.ra_le, h.ms_pos, h.rel_app,
            h.sum_le, ?_, ?_, ?_⟩
    · intro _ _; exact h.ra_eq (by rw [hs]; decide) (by rw [hs]; decide)
    · intro hne
      rcases h.dr_term hne with h' | h' <;> rw [hs] at h' <;> cases h'
    · intro hne
      rcases h.rv_term hne with h' | h' <;> rw [hs] at h' <;> cases h'
  | resolve_dispute caller result fb now =>
    obtain ⟨arb, -, -, hs, hcase⟩ := resolve_dispute_ok hok
    have hres : 0 ≤ e.amount - e.released_amount := by linarith [h.ra_le]
    rcases hcase with ⟨-, he, -⟩ | ⟨-, he, -⟩ | ⟨-, hfb1, hfb2, he, -⟩
    · subst he
      refine ⟨h.amount_pos, h.fee_nn, h.fee_le, h.ra_le, h.ms_pos, h.rel_app,
              h.sum_le, ?_, ?_, ?_⟩
      · intro _ h2; exact absurd rfl h2
      · intro _; exact Or.inr rfl
      · intro _; exact Or.inr rfl
    · subst he
      have hfee1 : 0 ≤ (fee (e.amount - e.released_amount) cfg.dispute_fee_bps).1 :=
        fee_fst_nonneg hres hd1
      have hfee2 : (fee (e.amount - e.released_amount) cfg.dispute_fee_bps).1 ≤
          e.amount - e.released_amount := fee_fst_le hres hd2
      refine ⟨h.amount_pos,
              by show 0 ≤ e.fee_collected +
                   (fee (e.amount - e.released_amount) cfg.dispute_fee_bps).1
                 linarith [h.fee_nn],
              by show e.fee_collected +
                   (fee (e.amount - e.released_amount) cfg.dispute_fee_bps).1 ≤
                   e.released_amount + (e.amount - e.released_amount)
                 linarith [h.fee_le],
              by show e.released_amount + (e.amount - e.released_amount) ≤ e.amount
                 linarith,
              h.ms_pos, h.rel_app, h.sum_le, ?_, ?_, ?_⟩
      · intro h1 _; exact absurd rfl h1
      · intro _; exact Or.inl rfl
      · intro _; exact Or.inl rfl
    · subst he
      have hfs1 : 0 ≤ (e.amount - e.released_amount) * fb / 10000 :=
        Int.ediv_nonneg (mul_nonneg hres hfb1) (by norm_num)
      have hfs2 : (e.amount - e.released_amount) * fb / 10000 ≤
          e.amount - e.released_amount := fee_fst_le hres hfb2
      have hfee1 : 0 ≤ (fee ((e.amount - e.released_amount) * fb / 10000)
          cfg.dispute_fee_bps).1 := fee_fst_nonneg hfs1 hd1
      have hfee2 : (fee ((e.amount - e.released_amount) * fb / 10000)
          cfg.dispute_fee_bps).1 ≤ (e.amount - e.released_amount) * fb / 10000 :=
        fee_fst_le hfs1 hd2
      refine ⟨h.amount_pos,
              by show 0 ≤ e.fee_collected +
                   (fee ((e.amount - e.released_amount) * fb / 10000)
                     cfg.dispute_fee_bps).1
                 linarith [h.fee_nn],
              by show e.fee_collected +
                   (fee ((e.amount - e.released_amount) * fb / 10000)
                     cfg.dispute_fee_bps).1 ≤
                   e.released_amount + (e.amount - e.released_amount) * fb / 10000
                 linarith [h.fee_le],
              by show e.released_amount +
                   (e.amount - e.released_amount) * fb / 10000 ≤ e.amount
                 linarith,
              h.ms_pos, h.rel_app, h.sum_le, ?_, ?_, ?_⟩
      · intro h1 h2
        dsimp only at h1 h2
        split at h1
        · exact absurd rfl h1
        next hc =>
          rw [if_neg hc] at h2
          exact absurd rfl h2
      · intro _
        split
        · exact Or.inl rfl
        · exact Or.inr rfl
      · intro _
        split
        · exact Or.inl rfl
        · exact Or.inr rfl
  | refund caller now =>
    obtain ⟨hs, he, -⟩ := refund_ok hok
    subst he
    refine ⟨h.amount_pos, h.fee_nn, h.fee_le, h.ra_le, h.ms_pos, h.rel_app,
            h.sum_le, ?_, ?_, ?_⟩
    · intro _ h2; exact absurd rfl h2
    · intro _; exact Or.inr rfl
    · intro _; exact Or.inr rfl

lemma inv_step {cfg : Config} (hcfg : CfgOk cfg) (op : Op) {e : EscrowData}
    (h : Inv e) : Inv (step cfg op e) := by
  cases hx : exec cfg op e with
  | error err => rw [step_of_error hx]; exact h
  | ok v =>
    obtain ⟨e', p⟩ := v
    rw [step_of_ok hx]
    exact exec_ok_inv hcfg h hx

lemma inv_steps {cfg : Config} (hcfg : CfgOk cfg) (ops : List Op) {e : EscrowData}
    (h : Inv e) : Inv (steps cfg ops e) := by
  induction ops generalizing e with
  | nil => exact h
  | cons op t ih => exact ih (inv_step hcfg op h)

lemma inv_reachable {cfg : Config} (hcfg : CfgOk cfg) {client freelancer : Nat}
    {arbitrator token : Option Nat} {amount : Int} {timeout_secs : Option Nat}
    {fee_manager t0 : Nat} {e : EscrowData} (hamt : 0 < amount)
    (hr : Reachable cfg
      (create client freelancer arbitrator token amount timeout_secs fee_manager t0) e) :
    Inv e := by
  obtain ⟨ops, hops⟩ := hr
  rw [← hops]
  exact inv_steps hcfg ops (inv_create hamt)

lemma terminal_step (cfg : Config) (op : Op) {e : EscrowData}
    (hterm : e.state = .Released ∨ e.state = .Refunded) :
    (step cfg op e).dispute_result = e.dispute_result ∧
    (step cfg op e).resolved_at = e.resolved_at ∧
    (step cfg op e).state = e.state := by
  have hne1 : e.state ≠ .Created := by
    rcases hterm with h | h <;> rw [h] <;> decide
  have hne2 : e.state ≠ .Funded := by
    rcases hterm with h | h <;> rw [h] <;> decide
  have hne3 : e.state ≠ .Disputed := by
    rcases hterm with h | h <;> rw [h] <;> decide
  cases hx : exec cfg op e with
  | error err => rw [step_of_error hx]; exact ⟨rfl, rfl, rfl⟩
  | ok v =>
    obtain ⟨e', p⟩ := v
    rw [step_of_ok hx]
    cases op with
    | fund caller value now =>
      obtain ⟨-, hs, -⟩ := fund_ok hx
      exact absurd hs hne1
    | create_milestone caller d amount now =>
      obtain ⟨-, hs, -⟩ := create_milestone_ok hx
      rcases hs with h' | h' <;> [exact absurd h' hne1; exact absurd h' hne2]
    | approve_milestone caller id now =>
      obtain ⟨-, m, hf, -, he, -⟩ := approve_milestone_ok hx
      subst he
      exact ⟨rfl, rfl, rfl⟩
    | release_milestone caller id now =>
      obtain ⟨-, hs, -⟩ := release_milestone_ok hx
      exact absurd hs hne2
    | release_full caller now =>
      obtain ⟨-, hs, -⟩ := release_full_ok hx
      exact absurd hs hne2
    | raise_dispute caller now =>
      obtain ⟨-, hs, -⟩ := raise_dispute_ok hx
      exact absurd hs hne2
    | resolve_dispute caller result fb now =>
      obtain ⟨arb, -, -, hs, -⟩ := resolve_dispute_ok hx
      exact absurd hs hne3
    | refund caller now =>
      obtain ⟨hs, -⟩ := refund_ok hx
      exact absurd hs hne2

lemma terminal_steps (cfg : Config) (ops : List Op) {e : EscrowData}
    (hterm : e.state = .Released ∨ e.state = .Refunded) :
    (steps cfg ops e).dispute_result = e.dispute_result ∧
    (steps cfg ops e).resolved_at = e.resolved_at ∧
    (steps cfg ops e).state = e.state := by
  induction ops generalizing e with
  | nil => exact ⟨rfl, rfl, rfl⟩
  | cons op t ih =>
    have h1 := terminal_step cfg op hterm
    have hterm' : (step cfg op e).state = .Released ∨
        (step cfg op e).state = .Refunded := by
      rw [h1.2.2]; exact hterm
    have h2 := ih hterm'
    exact ⟨h2.1.trans h1.1, h2.2.1.trans h1.2.1, h2.2.2.trans h1.2.2⟩

lemma approveLoop_no_match {reqs : List RecoveryRequest} {i : Nat}
    (h : ∀ r ∈ reqs, r.request_id ≠ i) : approveLoop reqs i = reqs := by
  induction reqs with
  | nil => rfl
  | cons a t ih =>
    unfold approveLoop
    rw [if_neg (h a (by simp))]
    rw [ih (fun r hr => h r (by simp [hr]))]

/-- C1: `EscrowState::can_transition_to` accepts exactly the six pairs
Created→Funded, Funded→Released, Funded→Refunded, Funded→Disputed,
Disputed→Released, Disputed→Refunded; every successful entrypoint call
either keeps the state or follows one of these edges; and the
state-changing entrypoints (fund, raise_dispute, release_full, refund)
invoked on a state that lacks the corresponding edge fail with
`InvalidTransition` leaving the record unchanged. -/
theorem escrow_transition_closure :
    (∀ s t : EscrowState, s.can_transition_to t = true ↔
      ((s = .Created ∧ t = .Funded) ∨ (s = .Funded ∧ t = .Released) ∨
       (s = .Funded ∧ t = .Refunded) ∨ (s = .Funded ∧ t = .Disputed) ∨
       (s = .Disputed ∧ t = .Released) ∨ (s = .Disputed ∧ t = .Refunded))) ∧
    (∀ (cfg : Config) (op : Op) (e e' : EscrowData) (p : Payout),
      exec cfg op e = .ok (e', p) →
      e'.state = e.state ∨ e.state.can_transition_to e'.state = true) ∧
    (∀ (cfg : Config) (e : EscrowData) (caller : Nat) (value : Int) (now : Nat),
      caller = e.client → e.state.can_transition_to .Funded = false →
      exec cfg (.fund caller value now) e = .error .InvalidTransition ∧
      step cfg (.fund caller value now) e = e) ∧
    (∀ (cfg : Config) (e : EscrowData) (caller now : Nat),
      (caller = e.client ∨ caller = e.freelancer) →
      e.state.can_transition_to .Disputed = false →
      exec cfg (.raise_dispute caller now) e = .error .InvalidTransition ∧
      step cfg (.raise_dispute caller now) e = e) ∧
    (∀ (cfg : Config) (e : EscrowData) (caller now : Nat),
      caller = e.client → e.state.can_transition_to .Released = false →
      exec cfg (.release_full caller now) e = .error .InvalidTransition ∧
      step cfg (.release_full caller now) e = e) ∧
    (∀ (cfg : Config) (e : EscrowData) (caller now : Nat),
      e.state.can_transition_to .Refunded = false →
      exec cfg (.refund caller now) e = .error .InvalidTransition ∧
      step cfg (.refund caller now) e = e) := by
  refine ⟨?_, ?_, ?_, ?_, ?_, ?_⟩
  · intro s t
    cases s <;> cases t <;> decide
  · intro cfg op e e' p hok
    cases op with
    | fund caller value now =>
      obtain ⟨-, hs, -, he, -⟩ := fund_ok hok
      subst he
      right; rw [hs]; rfl
    | create_milestone caller d amount now =>
      obtain ⟨-, -, -, -, -, -, he, -⟩ := create_milestone_ok hok
      subst he
      left; rfl
    | approve_milestone caller id now =>
      obtain ⟨-, m, hf, -, he, -⟩ := approve_milestone_ok hok
      subst he
      left; rfl
    | release_milestone caller id now =>
      obtain ⟨-, hs, m, hf, -, -, he, -⟩ := release_milestone_ok hok
      subst he
      dsimp only
      split
      · right; rw [hs]; rfl
      · left; rfl
    | release_full caller now =>
      obtain ⟨-, hs, -, he, -⟩ := release_full_ok hok
      subst he
      right; rw [hs]; rfl
    | raise_dispute caller now =>
      obtain ⟨-, hs, -, he, -⟩ := raise_dispute_ok hok
      subst he
      right; rw [hs]; rfl
    | resolve_dispute caller result fb now =>
      obtain ⟨arb, -, -, hs, hcase⟩ := resolve_dispute_ok hok
      rcases hcase with ⟨-, he, -⟩ | ⟨-, he, -⟩ | ⟨-, -, -, he, -⟩ <;> subst he
      · right; rw [hs]; rfl
      · right; rw [hs]; rfl
      · dsimp only
        split
        · right; rw [hs]; rfl
        · right; rw [hs]; rfl
    | refund caller now =>
      obtain ⟨hs, he, -⟩ := refund_ok hok
      subst he
      right; rw [hs]; rfl
  · intro cfg e caller value now hc hcan
    have hx : exec cfg (.fund caller value now) e = .error .InvalidTransition := by
      show fund caller value now e = _
      unfold fund
      rw [if_neg (not_not_intro hc), if_pos (by simp [hcan])]
    exact ⟨hx, step_of_error hx⟩
  · intro cfg e caller now hauth hcan
    have hx : exec cfg (.raise_dispute caller now) e =
        .error .InvalidTransition := by
      show raise_dispute caller now e = _
      unfold raise_dispute
      rw [if_neg (not_not_intro hauth), if_pos (by simp [hcan])]
    exact ⟨hx, step_of_error hx⟩
  · intro cfg e caller now hc hcan
    have hx : exec cfg (.release_full caller now) e =
        .error .InvalidTransition := by
      show release_full cfg caller now e = _
      unfold release_full
      rw [if_neg (not_not_intro hc), if_pos (ne_funded_of_not_can_released hcan)]
    exact ⟨hx, step_of_error hx⟩
  · intro cfg e caller now hcan
    have hx : exec cfg (.refund caller now) e = .error .InvalidTransition := by
      show refund caller now e = _
      unfold refund
      rw [if_pos (ne_funded_of_not_can_refunded hcan)]
    exact ⟨hx, step_of_error hx⟩

/-- Witness for C1: funding an already-funded escrow fails with
`InvalidTransition` and leaves the record unchanged. -/
theorem escrow_transition_closure_witness :
    exec defaultConfig (.fund 1 1000 130) escrowA1 = .error .InvalidTransition ∧
    step defaultConfig (.fund 1 1000 130) escrowA1 = escrowA1 :=
  escrow_transition_closure.2.2.1 defaultConfig escrowA1 1 1000 130
    (by decide) (by decide)

/-- Counterexample to C2 as stated: after scenario A (fund then full
release of a 1000 escrow at the default 2.5% fee) the reachable record has
`released_amount = 1000` and `fee_collected = 25`, so
`released_amount + fee_collected <= amount` fails, and with the refundable
residual `amount - released_amount` the claimed sum overshoots `amount` by
the collected fee. -/
theorem conservation_claim_counterexample :
    Reachable defaultConfig escrowA0 escrowA2 ∧
    escrowA2.released_amount = 1000 ∧ escrowA2.fee_collected = 25 ∧
    escrowA2.amount = 1000 ∧
    ¬ (escrowA2.released_amount + escrowA2.fee_collected ≤ escrowA2.amount) ∧
    escrowA2.released_amount + escrowA2.fee_collected +
        (escrowA2.amount - escrowA2.released_amount) ≠ escrowA2.amount :=
  ⟨⟨[.fund 1 1000 110, .release_full 1 120], rfl⟩,
   by decide, by decide, by decide, by decide, by decide⟩

/-- C2 (amended): on every reachable record `released_amount` is the gross
value settled so far and already contains the collected fee, so the
conservation law reads: the freelancer's cumulative net
(`released_amount - fee_collected`) plus `fee_collected` plus the
refundable residual (`amount - released_amount`) equals `amount`;
equivalently `0 ≤ fee_collected ≤ released_amount ≤ amount` holds at all
times. -/
theorem conservation_invariant (cfg : Config) (hcfg : CfgOk cfg)
    (client freelancer : Nat) (arbitrator token : Option Nat) (amount : Int)
    (timeout_secs : Option Nat) (fee_manager t0 : Nat) (e : EscrowData)
    (hamt : 0 < amount)
    (hr : Reachable cfg
      (create client freelancer arbitrator token amount timeout_secs fee_manager t0) e) :
    0 ≤ e.fee_collected ∧ e.fee_collected ≤ e.released_amount ∧
    e.released_amount ≤ e.amount ∧
    (e.released_amount - e.fee_collected) + e.fee_collected +
      (e.amount - e.released_amount) = e.amount := by
  have h := inv_reachable hcfg hamt hr
  exact ⟨h.fee_nn, h.fee_le, h.ra_le, by ring⟩

/-- Witness for C2 (amended): the conservation bounds hold on the concrete
scenario-A record. -/
theorem conservation_invariant_witness :
    0 ≤ escrowA2.fee_collected ∧
    escrowA2.fee_collected ≤ escrowA2.released_amount ∧
    escrowA2.released_amount ≤ escrowA2.amount ∧
    (escrowA2.released_amount - escrowA2.fee_collected) + escrowA2.fee_collected +
      (escrowA2.amount - escrowA2.released_amount) = escrowA2.amount :=
  conservation_invariant defaultConfig (by decide) 1 2 (some 3) none 1000 none 9 100
    escrowA2 (by decide) ⟨[.fund 1 1000 110, .release_full 1 120], rfl⟩

/-- C3: the fee calculator is the pure basis-point function of the spec;
with the embedded default escrow fee of 250 bps, a gross of 1000 yields
fee 25 and net 975, and the concrete scenario-A full release pays the
freelancer 975, collects fee 25 and ends in state Released. -/
theorem fee_calculator_scenario_a :
    (∀ gross fee_bps : Int,
      fee gross fee_bps =
        (gross * fee_bps / 10000, gross - gross * fee_bps / 10000)) ∧
    DEFAULT_ESCROW_FEE_PERCENTAGE = 250 ∧
    defaultConfig.fee_bps = DEFAULT_ESCROW_FEE_PERCENTAGE ∧
    fee 1000 DEFAULT_ESCROW_FEE_PERCENTAGE = (25, 975) ∧
    exec defaultConfig (.release_full 1 120) escrowA1 =
      .ok (escrowA2, { to_client := 0, to_freelancer := 975, fee_amount := 25 }) ∧
    escrowA2.state = .Released ∧ escrowA2.released_amount = 1000 ∧
    escrowA2.fee_collected = 25 ∧ escrowA2.net_amount = 975 :=
  ⟨fun _ _ => rfl, rfl, rfl, by decide, rfl, by decide, by decide,
   by decide, by decide⟩

/-- C4: once a reachable record has a nonzero `dispute_result` (set only by
`resolve_dispute`, which also sets `resolved_at` and moves to a terminal
state), no later call sequence ever changes `dispute_result` or
`resolved_at`; every further `raise_dispute` or `resolve_dispute` call
fails; and the transition predicate admits no edge out of Released or
Refunded. -/
theorem dispute_resolution_final (cfg : Config) (hcfg : CfgOk cfg)
    (client freelancer : Nat) (arbitrator token : Option Nat) (amount : Int)
    (timeout_secs : Option Nat) (fee_manager t0 : Nat) (e : EscrowData)
    (hamt : 0 < amount)
    (hr : Reachable cfg
      (create client freelancer arbitrator token amount timeout_secs fee_manager t0) e)
    (hd : e.dispute_result ≠ 0) :
    (∀ ops : List Op, (steps cfg ops e).dispute_result = e.dispute_result ∧
       (steps cfg ops e).resolved_at = e.resolved_at) ∧
    (∀ caller now : Nat,
       ∃ err, exec cfg (.raise_dispute caller now) e = .error err) ∧
    (∀ (caller : Nat) (result : DisputeResult) (fb : Int) (now : Nat),
       ∃ err, exec cfg (.resolve_dispute caller result fb now) e = .error err) ∧
    (∀ s : EscrowState, EscrowState.Released.can_transition_to s = false ∧
       EscrowState.Refunded.can_transition_to s = false) := by
  have hinv := inv_reachable hcfg hamt hr
  have hterm := hinv.dr_term hd
  have hne2 : e.state ≠ .Funded := by
    rcases hterm with h | h <;> rw [h] <;> decide
  have hne3 : e.state ≠ .Disputed := by
    rcases hterm with h | h <;> rw [h] <;> decide
  refine ⟨?_, ?_, ?_, ?_⟩
  · intro ops
    have h := terminal_steps cfg ops hterm
    exact ⟨h.1, h.2.1⟩
  · intro caller now
    cases hx : exec cfg (.raise_dispute caller now) e with
    | error err => exact ⟨err, rfl⟩
    | ok v =>
      obtain ⟨e', p⟩ := v
      obtain ⟨-, hs, -⟩ := raise_dispute_ok hx
      exact absurd hs hne2
  · intro caller result fb now
    cases hx : exec cfg (.resolve_dispute caller result fb now) e with
    | error err => exact ⟨err, rfl⟩
    | ok v =>
      obtain ⟨e', p⟩ := v
      obtain ⟨arb, -, -, hs, -⟩ := resolve_dispute_ok hx
      exact absurd hs hne3
  · intro s
    cases s <;> exact ⟨rfl, rfl⟩

/-- Witness for C4: on the concrete resolved escrow, a later refund call
changes neither `dispute_result` nor `resolved_at`. -/
theorem dispute_resolution_final_witness :
    (steps defaultConfig [Op.refund 1 200] escrowRes).dispute_result =
      escrowRes.dispute_result ∧
    (steps defaultConfig [Op.refund 1 200] escrowRes).resolved_at =
      escrowRes.resolved_at :=
  (dispute_resolution_final defaultConfig (by decide) 1 2 (some 3) none 1000 none
    9 100 escrowRes (by decide)
    ⟨[.fund 1 1000 110, .raise_dispute 1 115, .resolve_dispute 3 .ClientWins 0 130],
     rfl⟩
    (by decide)).1 [Op.refund 1 200]

/-- C5: on a funded escrow with a timeout configured, a non-client refund
call strictly before `funded_at + timeout_secs` fails with
`TimeoutNotReached` and changes nothing; once the timeout has elapsed any
caller's refund succeeds, pays the client the unreleased residual
`amount - released_amount` without touching `released_amount` or
`fee_collected`, and moves the state to Refunded; concretely (scenario C,
amount 500, timeout 86400, funded at 0) a stranger's refund at 86399 fails
with `TimeoutNotReached` and at 86401 pays the client 500. -/
theorem timeout_refund_policy (cfg : Config) (e : EscrowData)
    (f t caller now : Nat)
    (hs : e.state = .Funded) (hf : e.funded_at = some f)
    (ht : e.timeout_secs = some t) :
    (caller ≠ e.client → now < f + t →
       exec cfg (.refund caller now) e = .error .TimeoutNotReached ∧
       step cfg (.refund caller now) e = e) ∧
    (f + t ≤ now →
       exec cfg (.refund caller now) e =
         .ok ({ e with state := .Refunded },
              { to_client := e.amount - e.released_amount, to_freelancer := 0
              , fee_amount := 0 })) ∧
    exec defaultConfig (.refund 7 86399) escrowC1 = .error .TimeoutNotReached ∧
    exec defaultConfig (.refund 7 86401) escrowC1 =
      .ok ({ escrowC1 with state := .Refunded },
           { to_client := 500, to_freelancer := 0, fee_amount := 0 }) ∧
    escrowC1.amount - escrowC1.released_amount = 500 := by
  refine ⟨?_, ?_, rfl, rfl, by decide⟩
  · intro hc hlt
    have hx : exec cfg (.refund caller now) e = .error .TimeoutNotReached := by
      show refund caller now e = _
      simp [refund, hs, hf, ht, hc, hlt]
    exact ⟨hx, step_of_error hx⟩
  · intro hge
    show refund caller now e = _
    by_cases hc : caller = e.client
    · simp [refund, hs, hc]
    · simp [refund, hs, hf, ht, hc, not_lt.mpr hge]

/-- Witness for C5: the general statement applied to the concrete
scenario-C escrow and a non-client caller. -/
theorem timeout_refund_policy_witness :
    exec defaultConfig (.refund 7 86399) escrowC1 = .error .TimeoutNotReached ∧
    step defaultConfig (.refund 7 86399) escrowC1 = escrowC1 :=
  (timeout_refund_policy defaultConfig escrowC1 0 86400 7 86399
    (by decide) (by decide) (by decide)).1 (by decide) (by decide)

/-- C6: an otherwise-valid `create_milestone` call (client caller, state
Created or Funded, nothing released yet, positive amount, below the
milestone cap) fails with `AmountMismatch` and appends nothing — neither
to the milestone list nor to the audit log — exactly when the new amount
would push the running milestone sum above the escrow amount; when it
succeeds, the appended milestone gets the next sequential id
`length + 1` and the running sum stays bounded by `amount`. -/
theorem milestone_sum_bound (cfg : Config) (e : EscrowData) (caller : Nat)
    (d : String) (amt : Int) (now : Nat)
    (hc : caller = e.client) (hs : e.state = .Created ∨ e.state = .Funded)
    (hnr : e.milestones.any (·.released) = false) (hpos : 0 < amt)
    (hcnt : e.milestones.length < cfg.max_milestones) :
    (e.amount < milestoneSum e.milestones + amt →
       exec cfg (.create_milestone caller d amt now) e = .error .AmountMismatch ∧
       step cfg (.create_milestone caller d amt now) e = e) ∧
    (milestoneSum e.milestones + amt ≤ e.amount →
       exec cfg (.create_milestone caller d amt now) e =
         .ok ({ e with
                 milestones := e.milestones ++
                   [{ id := e.milestones.length + 1, description := d
                    , amount := amt, approved := false, released := false
                    , created_at := now, approved_at := none
                    , released_at := none }]
               , milestone_history := e.milestone_history ++
                   [⟨{ id := e.milestones.length + 1, description := d
                     , amount := amt, approved := false, released := false
                     , created_at := now, approved_at := none
                     , released_at := none }, "created", now⟩] },
              noPayout) ∧
       milestoneSum (e.milestones ++
         [{ id := e.milestones.length + 1, description := d, amount := amt
          , approved := false, released := false, created_at := now
          , approved_at := none, released_at := none }]) ≤ e.amount) := by
  constructor
  · intro hover
    have hx : exec cfg (.create_milestone caller d amt now) e =
        .error .AmountMismatch := by
      show create_milestone cfg caller d amt now e = _
      unfold create_milestone
      rw [if_neg (not_not_intro hc), if_neg (not_not_intro hs),
          if_neg (by simp [hnr]), if_neg (not_le.mpr hpos),
          if_neg (not_le.mpr hcnt), if_pos hover]
    exact ⟨hx, step_of_error hx⟩
  · intro hle
    constructor
    · show create_milestone cfg caller d amt now e = _
      unfold create_milestone
      rw [if_neg (not_not_intro hc), if_neg (not_not_intro hs),
          if_neg (by simp [hnr]), if_neg (not_le.mpr hpos),
          if_neg (not_le.mpr hcnt), if_neg (not_lt.mpr hle)]
    · rw [milestoneSum_append]
      exact hle

/-- Witness for C6: on a 1000 escrow already carrying a 400 milestone, a
further milestone of 700 fails with `AmountMismatch` and the record is
unchanged. -/
theorem milestone_sum_bound_witness :
    exec defaultConfig (.create_milestone 1 "m2" 700 112) escrowM =
      .error .AmountMismatch ∧
    step defaultConfig (.create_milestone 1 "m2" 700 112) escrowM = escrowM :=
  (milestone_sum_bound defaultConfig escrowM 1 "m2" 700 112
    (by decide) (by decide) (by decide) (by decide) (by decide)).1 (by decide)

/-- C7: if `release_milestone` succeeded once on an id, any second
authorized `release_milestone` call on the same id fails with
`MilestoneAlreadyReleased` and leaves the record — in particular
`released_amount` — unchanged; moreover the first success itself required
the milestone to be approved and not yet released. -/
theorem no_double_release (cfg : Config) (e e' : EscrowData) (p : Payout)
    (caller caller2 id now now2 : Nat)
    (hok : exec cfg (.release_milestone caller id now) e = .ok (e', p))
    (hauth : caller2 = e'.client ∨ some caller2 = e'.arbitrator) :
    exec cfg (.release_milestone caller2 id now2) e' =
      .error .MilestoneAlreadyReleased ∧
    step cfg (.release_milestone caller2 id now2) e' = e' ∧
    ∃ m, e.milestones.find? (·.id = id) = some m ∧ m.approved = true ∧
      m.released = false := by
  obtain ⟨-, -, m, hf, hrel, happ, he, -⟩ := release_milestone_ok hok
  have hf' : e'.milestones.find? (·.id = id) =
      some { m with released := true, released_at := some now } := by
    rw [he]
    exact markReleased_find? hf
  have hx : exec cfg (.release_milestone caller2 id now2) e' =
      .error .MilestoneAlreadyReleased := by
    show release_milestone cfg caller2 id now2 e' = _
    unfold release_milestone
    rw [if_neg (not_not_intro hauth), hf']
    rfl
  exact ⟨hx, step_of_error hx, m, hf, happ, hrel⟩

/-- Witness for C7: the concrete double release of milestone 1 of a 1000
escrow with milestones 400 and 600. -/
theorem no_double_release_witness :
    exec defaultConfig (.release_milestone 1 1 120) escrowM3 =
      .error .MilestoneAlreadyReleased ∧
    step defaultConfig (.release_milestone 1 1 120) escrowM3 = escrowM3 ∧
    ∃ m, escrowM2.milestones.find? (·.id = 1) = some m ∧ m.approved = true ∧
      m.released = false :=
  no_double_release defaultConfig escrowM2 escrowM3
    { to_client := 0, to_freelancer := 390, fee_amount := 10 }
    1 1 1 114 120 rfl (by decide)

/-- Counterexample to C8 as stated: on the concrete disputed escrow, a
Split resolution with freelancer share 0 does not produce exactly the
same final record as ClientWins — the stored `dispute_result` is 3 versus
1 (and likewise Split with client share 0 differs from FreelancerWins) —
although both reach the same terminal state. -/
theorem split_boundary_counterexample :
    step defaultConfig (.resolve_dispute 3 .Split 0 130) escrowB ≠
      step defaultConfig (.resolve_dispute 3 .ClientWins 0 130) escrowB ∧
    (step defaultConfig (.resolve_dispute 3 .Split 0 130) escrowB).dispute_result
      = 3 ∧
    (step defaultConfig (.resolve_dispute 3 .ClientWins 0 130) escrowB).dispute_result
      = 1 ∧
    (step defaultConfig (.resolve_dispute 3 .Split 0 130) escrowB).state
      = .Refunded ∧
    (step defaultConfig (.resolve_dispute 3 .ClientWins 0 130) escrowB).state
      = .Refunded ∧
    step defaultConfig (.resolve_dispute 3 .Split 10000 130) escrowB ≠
      step defaultConfig (.resolve_dispute 3 .FreelancerWins 0 130) escrowB :=
  ⟨by decide, by decide, by decide, by decide, by decide, by decide⟩

/-- C8 (amended): on every disputed escrow with positive residual, a Split
resolution with freelancer share 0 yields the same payouts and the same
final record as ClientWins except for the `dispute_result` field (3
instead of 1), and a Split with client share 0 (ratio 10000) likewise
matches FreelancerWins except for `dispute_result` (3 instead of 2). -/
theorem split_boundary_equiv (cfg : Config) (e : EscrowData)
    (caller arb now : Nat)
    (harb : e.arbitrator = some arb) (hc : caller = arb)
    (hs : e.state = .Disputed) (hres : 0 < e.amount - e.released_amount) :
    ∃ ecw pcw efw pfw,
      resolve_dispute cfg caller .ClientWins 0 now e = .ok (ecw, pcw) ∧
      resolve_dispute cfg caller .Split 0 now e =
        .ok ({ ecw with dispute_result := DisputeResult.Split.toU32 }, pcw) ∧
      resolve_dispute cfg caller .FreelancerWins 0 now e = .ok (efw, pfw) ∧
      resolve_dispute cfg caller .Split 10000 now e =
        .ok ({ efw with dispute_result := DisputeResult.Split.toU32 }, pfw) := by
  have hne : e.amount - e.released_amount ≠ 0 := ne_of_gt hres
  have hfs : (e.amount - e.released_amount) * 10000 / 10000 =
      e.amount - e.released_amount := Int.mul_ediv_cancel _ (by norm_num)
  refine ⟨{ e with
             state := .Refunded
           , dispute_result := DisputeResult.ClientWins.toU32
           , resolved_at := some now
           , net_amount := e.amount - e.fee_collected },
          { to_client := e.amount - e.released_amount, to_freelancer := 0
          , fee_amount := 0 },
          { e with
             state := .Released
           , dispute_result := DisputeResult.FreelancerWins.toU32
           , resolved_at := some now
           , released_at := some now
           , released_amount := e.released_amount + (e.amount - e.released_amount)
           , fee_collected := e.fee_collected +
               (fee (e.amount - e.released_amount) cfg.dispute_fee_bps).1
           , net_amount := e.amount - (e.fee_collected +
               (fee (e.amount - e.released_amount) cfg.dispute_fee_bps).1) },
          { to_client := 0
          , to_freelancer := (fee (e.amount - e.released_amount) cfg.dispute_fee_bps).2
          , fee_amount := (fee (e.amount - e.released_amount) cfg.dispute_fee_bps).1 },
          ?_, ?_, ?_, ?_⟩
  · simp [resolve_dispute, harb, hc, hs]
  · simp [resolve_dispute, harb, hc, hs, fee]
  · simp [resolve_dispute, harb, hc, hs]
  · simp [resolve_dispute, harb, hc, hs, hfs, hne]

/-- Witness for C8 (amended): the equivalence instantiated on the concrete
disputed escrow of amount 1000. -/
theorem split_boundary_equiv_witness :
    ∃ ecw pcw efw pfw,
      resolve_dispute defaultConfig 3 .ClientWins 0 130 escrowB = .ok (ecw, pcw) ∧
      resolve_dispute defaultConfig 3 .Split 0 130 escrowB =
        .ok ({ ecw with dispute_result := DisputeResult.Split.toU32 }, pcw) ∧
      resolve_dispute defaultConfig 3 .FreelancerWins 0 130 escrowB = .ok (efw, pfw) ∧
      resolve_dispute defaultConfig 3 .Split 10000 130 escrowB =
        .ok ({ efw with dispute_result := DisputeResult.Split.toU32 }, pfw) :=
  split_boundary_equiv defaultConfig escrowB 3 3 130
    (by decide) rfl (by decide) (by decide)

/-- C9: `EscrowData.dispute_result` is a raw u32, not the `DisputeResult`
enumeration, whose discriminants are 0..3; a well-typed record with
`dispute_result = 7` (a u32 value above every discriminant) exists, so the
type does not restrict the field to the four named outcomes. -/
theorem dispute_result_raw_u32 :
    (∀ r : DisputeResult, r.toU32 ≤ 3) ∧
    escrowRaw.dispute_result = 7 ∧ 3 < escrowRaw.dispute_result ∧
    escrowRaw.dispute_result < 2 ^ 32 ∧
    (∀ r : DisputeResult, r.toU32 ≠ escrowRaw.dispute_result) := by
  refine ⟨?_, rfl, by decide, by decide, ?_⟩
  · intro r; cases r <;> decide
  · intro r; cases r <;> decide

/-- C10: with the stored request list present, `approve_recovery_request`
on an id that matches no stored request succeeds rather than failing with
`RecoveryRequestNotFound`: it leaves every stored request unchanged, still
writes the (identical) list back, and still emits the
`approve_recovery_request` event. -/
theorem approve_recovery_request_missing_id (reqs : List RecoveryRequest)
    (i : Nat) (h : ∀ r ∈ reqs, r.request_id ≠ i) :
    approve_recovery_request (some reqs) i =
      .ok (reqs, { topic := "approve_recovery_request", request_id := i }) := by
  show Except.ok (approveLoop reqs i,
    ({ topic := "approve_recovery_request", request_id := i } : EmergencyEvent)) = _
  rw [approveLoop_no_match h]

/-- Witness for C10: a one-request list and a non-matching id. -/
theorem approve_recovery_request_missing_id_witness :
    approve_recovery_request
      (some [{ request_id := 1, user_address := 5, amount := 10
             , reason := "stuck", status := "PENDING", timestamp := 0 }]) 2 =
      .ok ([{ request_id := 1, user_address := 5, amount := 10
            , reason := "stuck", status := "PENDING", timestamp := 0 }],
           { topic := "approve_recovery_request", request_id := 2 }) :=
  approve_recovery_request_missing_id _ 2 (by decide)

end OfferHub
